import Mathlib

/-!
Shallow embedding of the usage-analytics subsystem of `src/http-server.ts`
(the telemetry Counter Store, its update protocol, the snapshot load/save
lifecycle, the merge-import endpoint, and the read-only aggregation views),
together with theorems settling the specification claims about it.

Modelling conventions:
- JavaScript objects used as counter maps (`Record<string, number>`) are
  association lists `List (String × Nat)` in insertion order; property
  update `m[k] = (m[k] || 0) + v` updates the entry in place or appends a
  new key at the end, exactly as JS object semantics do.
- Counters are `Nat` (the code only ever adds non-negative integers).
- `new Date().toISOString()` values and header-derived client fields are
  taken as `String` parameters supplied by the (excluded) dispatch layer.
- File I/O is modelled by an explicit `Option Analytics` disk cell; the
  logging side channel is ignored.
-/

namespace HttpServer

/-- Association-list counter map modelling a JS `Record<string, number>`. -/
abbrev CounterMap := List (String × Nat)

/-- Model of JS `s.substring(0, n)` for the ASCII strings used here. -/
def jsSubstring (s : String) (n : Nat) : String :=
  String.mk (s.data.take n)

/-- JS object read `m[k] || 0`: value at the first matching key, else 0. -/
def lookupD (m : CounterMap) (k : String) : Nat :=
  match m with
  | [] => 0
  | p :: ps => if p.1 == k then p.2 else lookupD ps k

/-- JS assignment `m[k] = (m[k] || 0) + v`: bump the entry in place if the
key exists, else append the new key at the end (JS insertion order). -/
def bump (m : CounterMap) (k : String) (v : Nat) : CounterMap :=
  match m with
  | [] => [(k, v)]
  | p :: ps => if p.1 == k then (p.1, p.2 + v) :: ps else p :: bump ps k v

/-- The `ToolCall` record interface of `http-server.ts` (lines 51-56). -/
structure ToolCall where
  tool : String
  timestamp : String
  clientIp : String
  userAgent : String
deriving Repr, DecidableEq

/-- The `Analytics` interface of `http-server.ts` (lines 58-69): the
Counter Store. -/
structure Analytics where
  serverStartTime : String
  totalRequests : Nat
  totalToolCalls : Nat
  requestsByMethod : CounterMap
  requestsByEndpoint : CounterMap
  toolCalls : CounterMap
  recentToolCalls : List ToolCall
  clientsByIp : CounterMap
  clientsByUserAgent : CounterMap
  hourlyRequests : CounterMap
deriving Repr, DecidableEq

/-- `MAX_RECENT_CALLS` (line 71). -/
def MAX_RECENT_CALLS : Nat := 100

/-- The default-initialized analytics object (lines 74-85), with
`serverStartTime = now`. -/
def initAnalytics (now : String) : Analytics :=
  { serverStartTime := now
    totalRequests := 0
    totalToolCalls := 0
    requestsByMethod := []
    requestsByEndpoint := []
    toolCalls := []
    recentToolCalls := []
    clientsByIp := []
    clientsByUserAgent := []
    hourlyRequests := [] }

/-- `trackRequest` (lines 141-158). `method`, `ip` and `ua` are the
request fields already resolved by the dispatch layer (`req.method`, the
forwarded-for/ip fallback chain, `req.headers['user-agent'] || 'unknown'`);
`now` is `new Date().toISOString()` at the call. The user agent is
truncated to 50 units and the hour key is the first 13 units of the ISO
timestamp, as in the source. -/
def trackRequest (a : Analytics) (method endpoint ip ua now : String) : Analytics :=
  { a with
    totalRequests := a.totalRequests + 1
    requestsByMethod := bump a.requestsByMethod method 1
    requestsByEndpoint := bump a.requestsByEndpoint endpoint 1
    clientsByIp := bump a.clientsByIp ip 1
    clientsByUserAgent := bump a.clientsByUserAgent (jsSubstring ua 50) 1
    hourlyRequests := bump a.hourlyRequests (jsSubstring now 13) 1 }

/-- `trackToolCall` (lines 160-175): bump the totals, prepend the call
record (`unshift`), and drop the oldest entry (`pop`) once the length
exceeds `MAX_RECENT_CALLS`. -/
def trackToolCall (a : Analytics) (toolName ip ua now : String) : Analytics :=
  let rc : List ToolCall :=
    { tool := toolName, timestamp := now, clientIp := ip,
      userAgent := jsSubstring ua 50 } :: a.recentToolCalls
  { a with
    totalToolCalls := a.totalToolCalls + 1
    toolCalls := bump a.toolCalls toolName 1
    recentToolCalls := if MAX_RECENT_CALLS < rc.length then rc.dropLast else rc }

/-- The event stream consumed from the dispatch layer (spec section 3):
each inbound request yields a `requestObserved`, each tool invocation a
`toolInvoked`, with the header-derived fields and the current timestamp. -/
inductive Event where
  | requestObserved (method endpoint clientIp userAgent atTime : String)
  | toolInvoked (toolName clientIp userAgent atTime : String)
deriving Repr, DecidableEq

/-- `record(event)`: dispatch to `trackRequest` / `trackToolCall`. -/
def record (e : Event) (a : Analytics) : Analytics :=
  match e with
  | .requestObserved m ep ip ua t => trackRequest a m ep ip ua t
  | .toolInvoked tn ip ua t => trackToolCall a tn ip ua t

/-- Run a sequence of `record()` calls, oldest first. -/
def run (a : Analytics) (evs : List Event) : Analytics :=
  evs.foldl (fun s e => record e s) a

/-- Recognizer for `RequestObserved` events. -/
def isRequestObserved : Event → Bool
  | .requestObserved .. => true
  | .toolInvoked .. => false

/-- Recognizer for `ToolInvoked` events. -/
def isToolInvoked : Event → Bool
  | .requestObserved .. => false
  | .toolInvoked .. => true

theorem run_nil (a : Analytics) : run a [] = a := rfl

theorem run_cons (a : Analytics) (e : Event) (evs : List Event) :
    run a (e :: evs) = run (record e a) evs := rfl

theorem totalRequests_record (a : Analytics) (e : Event) :
    (record e a).totalRequests =
      a.totalRequests + (if isRequestObserved e then 1 else 0) := by
  cases e <;> simp [record, trackRequest, trackToolCall, isRequestObserved]

theorem totalToolCalls_record (a : Analytics) (e : Event) :
    (record e a).totalToolCalls =
      a.totalToolCalls + (if isToolInvoked e then 1 else 0) := by
  cases e <;> simp [record, trackRequest, trackToolCall, isToolInvoked]

theorem totals_run (a : Analytics) (evs : List Event) :
    (run a evs).totalRequests = a.totalRequests + evs.countP isRequestObserved ∧
    (run a evs).totalToolCalls = a.totalToolCalls + evs.countP isToolInvoked := by
  induction evs generalizing a with
  | nil => simp [run_nil]
  | cons e evs ih =>
    rcases ih (record e a) with ⟨h1, h2⟩
    rw [run_cons]
    constructor
    · rw [h1, totalRequests_record, List.countP_cons]
      cases e <;> simp [isRequestObserved] <;> omega
    · rw [h2, totalToolCalls_record, List.countP_cons]
      cases e <;> simp [isToolInvoked] <;> omega

/-- C1: starting from a freshly initialized Counter Store, after any
sequence of `record()` calls `totalRequests` equals the number of
`RequestObserved` events in the sequence and `totalToolCalls` equals the
number of `ToolInvoked` events. -/
theorem c1_counter_monotonicity (now : String) (evs : List Event) :
    (run (initAnalytics now) evs).totalRequests = evs.countP isRequestObserved ∧
    (run (initAnalytics now) evs).totalToolCalls = evs.countP isToolInvoked := by
  have h := totals_run (initAnalytics now) evs
  simpa [initAnalytics] using h

/-- The `ToolCall` record that `trackToolCall` builds for a `ToolInvoked`
event (lines 164-169), `none` for a `RequestObserved` event. -/
def toolCallOf : Event → Option ToolCall
  | .toolInvoked tn ip ua t =>
      some { tool := tn, timestamp := t, clientIp := ip, userAgent := jsSubstring ua 50 }
  | .requestObserved .. => none

/-- The `ToolCall` records produced by a sequence of events, oldest first. -/
def toolRecords (evs : List Event) : List ToolCall := evs.filterMap toolCallOf

theorem take_append_take {α : Type} (n : Nat) (X Y : List α) :
    (X ++ Y.take n).take n = (X ++ Y).take n := by
  rw [List.take_append_eq_append_take, List.take_append_eq_append_take, List.take_take]
  rw [inf_eq_left.mpr (Nat.sub_le n X.length)]

theorem recentToolCalls_trackToolCall (a : Analytics) (tn ip ua t : String)
    (h : a.recentToolCalls.length ≤ 100) :
    (trackToolCall a tn ip ua t).recentToolCalls =
      (({ tool := tn, timestamp := t, clientIp := ip, userAgent := jsSubstring ua 50 } : ToolCall)
        :: a.recentToolCalls).take 100 := by
  simp only [trackToolCall, MAX_RECENT_CALLS, List.length_cons]
  by_cases hlen : 100 < a.recentToolCalls.length + 1
  · have h100 : a.recentToolCalls.length = 100 := by omega
    rw [if_pos hlen, List.dropLast_eq_take]
    simp [h100]
  · rw [if_neg hlen, List.take_of_length_le]
    simp only [List.length_cons]
    omega

theorem length_recentToolCalls_trackToolCall (a : Analytics) (tn ip ua t : String)
    (h : a.recentToolCalls.length ≤ 100) :
    (trackToolCall a tn ip ua t).recentToolCalls.length ≤ 100 := by
  rw [recentToolCalls_trackToolCall a tn ip ua t h, List.length_take]
  exact inf_le_left

theorem recentToolCalls_run (evs : List Event) (a : Analytics)
    (h : a.recentToolCalls.length ≤ 100) :
    (run a evs).recentToolCalls = ((toolRecords evs).reverse ++ a.recentToolCalls).take 100 := by
  induction evs generalizing a with
  | nil =>
    simp only [run_nil, toolRecords, List.filterMap_nil, List.reverse_nil, List.nil_append]
    exact (List.take_of_length_le h).symm
  | cons e evs ih =>
    rw [run_cons]
    cases e with
    | requestObserved m ep ip ua t =>
      have hrec : (record (.requestObserved m ep ip ua t) a).recentToolCalls
          = a.recentToolCalls := rfl
      rw [ih _ (by rw [hrec]; exact h), hrec]
      simp [toolRecords, List.filterMap_cons, toolCallOf]
    | toolInvoked tn ip ua t =>
      have hstep : (record (.toolInvoked tn ip ua t) a) = trackToolCall a tn ip ua t := rfl
      rw [hstep, ih _ (length_recentToolCalls_trackToolCall a tn ip ua t h),
        recentToolCalls_trackToolCall a tn ip ua t h]
      have htr : toolRecords (Event.toolInvoked tn ip ua t :: evs) =
          ({ tool := tn, timestamp := t, clientIp := ip,
             userAgent := jsSubstring ua 50 } : ToolCall) :: toolRecords evs := by
        simp [toolRecords, List.filterMap_cons, toolCallOf]
      rw [htr, List.reverse_cons, List.append_assoc, List.singleton_append]
      exact take_append_take 100 _ _

/-- A fresh store receiving 150 `ToolInvoked` events. -/
def demoToolEvents : List Event :=
  (List.range 150).map fun i => Event.toolInvoked "perplexity_search" "ip" "agent" (toString i)

/-- C2: from a freshly initialized Counter Store, `recentToolCalls` never
exceeds 100 entries after any sequence of `record()` calls, its content is
exactly the newest-first list of the most recent `ToolInvoked` records
truncated at 100 (insertion newest-first, FIFO eviction of the oldest),
and after 150 `ToolInvoked` events it holds exactly 100 entries. -/
theorem c2_bounded_recent_list (now : String) (evs : List Event) :
    (run (initAnalytics now) evs).recentToolCalls.length ≤ 100 ∧
    (run (initAnalytics now) evs).recentToolCalls = (toolRecords evs).reverse.take 100 ∧
    (run (initAnalytics now) demoToolEvents).recentToolCalls.length = 100 := by
  have hmain : ∀ l, (run (initAnalytics now) l).recentToolCalls
      = (toolRecords l).reverse.take 100 := by
    intro l
    have h := recentToolCalls_run l (initAnalytics now) (by simp [initAnalytics])
    simpa [initAnalytics] using h
  refine ⟨?_, hmain evs, ?_⟩
  · rw [hmain evs, List.length_take]
    exact inf_le_left
  · rw [hmain demoToolEvents, List.length_take, List.length_reverse]
    have hlen : (toolRecords demoToolEvents).length = 150 := by
      have : toolRecords demoToolEvents =
          (List.range 150).map fun i =>
            ({ tool := "perplexity_search", timestamp := toString i, clientIp := "ip",
               userAgent := jsSubstring "agent" 50 } : ToolCall) := by
        simp only [toolRecords, demoToolEvents, List.filterMap_map]
        rw [show (toolCallOf ∘ fun i => Event.toolInvoked "perplexity_search" "ip" "agent"
              (toString i)) = some ∘ (fun i =>
            ({ tool := "perplexity_search", timestamp := toString i, clientIp := "ip",
               userAgent := jsSubstring "agent" 50 } : ToolCall)) from funext fun i => rfl]
        rw [List.filterMap_eq_map]
      rw [this, List.length_map, List.length_range]
    rw [hlen]
    decide

/-- Sum of all counter values of a map. -/
def sumVals (m : CounterMap) : Nat := (m.map Prod.snd).sum

/-- Sum of the values carried by key `k` in a map (collapses duplicate
keys, which JSON-parsed objects never have). -/
def sumAt (f : CounterMap) (k : String) : Nat :=
  ((f.filter fun p => p.1 == k).map Prod.snd).sum

theorem lookupD_bump (m : CounterMap) (k j : String) (v : Nat) :
    lookupD (bump m k v) j = lookupD m j + (if j = k then v else 0) := by
  induction m with
  | nil =>
    by_cases h : j = k
    · subst h; simp [bump, lookupD]
    · simp [bump, lookupD, h, fun hh => h (Eq.symm hh)]
      intro hkj
      exact absurd hkj.symm h
  | cons p ps ih =>
    by_cases hpk : p.1 = k
    · by_cases hpj : p.1 = j
      · have hjk : j = k := hpj ▸ hpk
        simp [bump, lookupD, hpk, hpj, hjk]
      · have hjk : ¬ j = k := fun hh => hpj (hh ▸ hpk)
        have hkj : ¬ k = j := fun hh => hpj (hpk.trans hh)
        simp [bump, lookupD, hpk, hpj, hjk, hkj]
    · by_cases hpj : p.1 = j
      · have hjk : ¬ j = k := fun hh => hpk (hpj.trans hh)
        simp [bump, lookupD, hpk, hpj, hjk]
      · simp [bump, lookupD, hpk, hpj, ih]

theorem sumVals_bump (m : CounterMap) (k : String) (v : Nat) :
    sumVals (bump m k v) = sumVals m + v := by
  induction m with
  | nil => simp [bump, sumVals]
  | cons p ps ih =>
    by_cases hpk : p.1 = k
    · simp [bump, sumVals, hpk]
      omega
    · have hb : bump (p :: ps) k v = p :: bump ps k v := by
        simp [bump, hpk]
      rw [hb]
      simp only [sumVals, List.map_cons, List.sum_cons] at ih ⊢
      rw [ih]
      omega

/-- One merge loop of the import endpoint: fold `bump` over the foreign
entries, i.e. `for (const [k, count] of Object.entries(f)) m[k] += count`. -/
def mergeMap (m f : CounterMap) : CounterMap :=
  f.foldl (fun acc kv => bump acc kv.1 kv.2) m

/-- Guarded merge `if (field) for (...) ...`: absent field merges nothing. -/
def mergeMapOpt (m : CounterMap) (f : Option CounterMap) : CounterMap :=
  match f with
  | some f => mergeMap m f
  | none => m

theorem lookupD_mergeMap (m f : CounterMap) (j : String) :
    lookupD (mergeMap m f) j = lookupD m j + sumAt f j := by
  induction f generalizing m with
  | nil => simp [mergeMap, sumAt]
  | cons p f' ih =>
    have hstep : mergeMap m (p :: f') = mergeMap (bump m p.1 p.2) f' := rfl
    rw [hstep, ih, lookupD_bump]
    by_cases hpj : p.1 = j
    · simp [sumAt, hpj]
      omega
    · have hjp : ¬ j = p.1 := fun hh => hpj hh.symm
      simp [sumAt, hpj, hjp]

theorem sumVals_mergeMap (m f : CounterMap) :
    sumVals (mergeMap m f) = sumVals m + sumVals f := by
  induction f generalizing m with
  | nil => simp [mergeMap, sumVals]
  | cons p f' ih =>
    have hstep : mergeMap m (p :: f') = mergeMap (bump m p.1 p.2) f' := rfl
    rw [hstep, ih, sumVals_bump]
    simp [sumVals]
    omega

theorem sumAt_of_not_mem (f : CounterMap) (j : String) (h : j ∉ f.map Prod.fst) :
    sumAt f j = 0 := by
  induction f with
  | nil => simp [sumAt]
  | cons p ps ih =>
    simp only [List.map_cons, List.mem_cons, not_or] at h
    have hpj : ¬ p.1 = j := fun hh => h.1 (hh.symm)
    simp [sumAt, hpj]
    simpa [sumAt] using ih h.2

theorem sumAt_eq_lookupD (f : CounterMap) (j : String) (h : (f.map Prod.fst).Nodup) :
    sumAt f j = lookupD f j := by
  induction f with
  | nil => simp [sumAt, lookupD]
  | cons p ps ih =>
    simp only [List.map_cons, List.nodup_cons] at h
    by_cases hpj : p.1 = j
    · have hz : sumAt ps j = 0 := sumAt_of_not_mem ps j (hpj ▸ h.1)
      simp [sumAt, lookupD, hpj] at hz ⊢
      simpa [sumAt] using hz
    · simp [sumAt, lookupD, hpj]
      simpa [sumAt] using ih h.2

/-- The `summary` block of an import payload (lines 568-571). A field is
`none` when the JS handler reads nothing from it: the property is absent,
or not a usable number, in which case `|| 0` supplies 0. -/
structure ImportSummary where
  totalRequests : Option Nat
  totalToolCalls : Option Nat
deriving Repr, DecidableEq

/-- The `breakdown` block of an import payload (lines 574-593); `none`
fields are skipped by the `if (importData.breakdown?.x)` guards. -/
structure ImportBreakdown where
  byMethod : Option CounterMap
  byEndpoint : Option CounterMap
  byTool : Option CounterMap
deriving Repr, DecidableEq

/-- The `clients` block of an import payload (lines 596-608). -/
structure ImportClients where
  byIp : Option CounterMap
  byUserAgent : Option CounterMap
deriving Repr, DecidableEq

/-- A JSON body reaching the import endpoint's merge loop, as read by the
handler (lines 564-616). Every block is optional: any JSON subtree that is
missing or not an object of integer counters is never iterated by the
handler and is modelled as `none`. -/
structure ImportData where
  summary : Option ImportSummary
  breakdown : Option ImportBreakdown
  clients : Option ImportClients
  hourlyRequests : Option CounterMap
deriving Repr, DecidableEq

/-- The merge body of `POST /analytics/import` (lines 564-616): add the
declared scalar totals, then fold every present foreign map into the
matching local map. `recentToolCalls` is never touched. -/
def mergeImport (a : Analytics) (d : ImportData) : Analytics :=
  let a1 := match d.summary with
    | some s => { a with
        totalRequests := a.totalRequests + s.totalRequests.getD 0
        totalToolCalls := a.totalToolCalls + s.totalToolCalls.getD 0 }
    | none => a
  { a1 with
    requestsByMethod := mergeMapOpt a1.requestsByMethod (d.breakdown.bind ImportBreakdown.byMethod)
    requestsByEndpoint :=
      mergeMapOpt a1.requestsByEndpoint (d.breakdown.bind ImportBreakdown.byEndpoint)
    toolCalls := mergeMapOpt a1.toolCalls (d.breakdown.bind ImportBreakdown.byTool)
    clientsByIp := mergeMapOpt a1.clientsByIp (d.clients.bind ImportClients.byIp)
    clientsByUserAgent := mergeMapOpt a1.clientsByUserAgent (d.clients.bind ImportClients.byUserAgent)
    hourlyRequests := mergeMapOpt a1.hourlyRequests d.hourlyRequests }

/-- Client-visible outcome of `POST /analytics/import`: HTTP 200 with the
success message, HTTP 403 `Invalid import key`, or HTTP 400
`Failed to import analytics`. -/
inductive ImportOutcome where
  | ok
  | invalidKey
  | badRequest
deriving Repr, DecidableEq

/-- The guard `if (expectedKey && importKey !== expectedKey)` (line 559):
an environment credential that is unset or the empty string is falsy and
disables the gate; otherwise any non-matching (or missing) query key is
rejected. -/
def keyRejected (expectedKey importKey : Option String) : Bool :=
  match expectedKey with
  | none => false
  | some ek => ek != "" && importKey != some ek

/-- The whole `POST /analytics/import` handler (lines 554-634) acting on
the Counter Store. `body` is `req.body`: `none` models a request whose
body was not parsed into an object (then the very first read
`importData.summary` throws and the catch answers HTTP 400 before any
mutation); `some d` is any parsed JSON object, merged leniently. The
`saveAnalytics()` call on success only writes the already-merged store to
disk and does not change it. -/
def importEndpoint (a : Analytics) (expectedKey importKey : Option String)
    (body : Option ImportData) : Analytics × ImportOutcome :=
  if keyRejected expectedKey importKey then (a, .invalidKey)
  else
    match body with
    | none => (a, .badRequest)
    | some d => (mergeImport a d, .ok)

/-- Process state of the Persistence Manager: the live Counter Store and
the snapshot file (`none` = absent; a present file is its parsed content —
a file that fails to parse is abandoned with defaults kept and is not
modelled further, no claim touches it). -/
structure Sys where
  mem : Analytics
  disk : Option Analytics
deriving Repr, DecidableEq

/-- Adoption of a loaded snapshot (lines 107-110): take it wholesale,
stamping a fresh `serverStartTime` only when the recovered one is falsy
(modelled by the empty string). -/
def loadFrom (s : Analytics) (now : String) : Analytics :=
  { s with serverStartTime := if s.serverStartTime = "" then now else s.serverStartTime }

/-- `saveAnalytics` (lines 124-131): overwrite the snapshot file with the
current store; the store itself is untouched. -/
def saveAnalytics (s : Sys) : Sys := { s with disk := some s.mem }

/-- `loadAnalytics` (lines 100-121): adopt an existing snapshot file, or
start fresh and immediately save. -/
def loadAnalytics (s : Sys) (now : String) : Sys :=
  match s.disk with
  | some d => { s with mem := loadFrom d now }
  | none => saveAnalytics s

/-- Invariant of spec section 3: `totalToolCalls` equals the sum of all
values in `toolCalls`. -/
def ToolConsistent (a : Analytics) : Prop := a.totalToolCalls = sumVals a.toolCalls

/-- Scalar `summary.totalRequests || 0` declared by an import payload. -/
def payloadTotalRequests (d : ImportData) : Nat :=
  match d.summary with
  | some s => s.totalRequests.getD 0
  | none => 0

/-- Scalar `summary.totalToolCalls || 0` declared by an import payload. -/
def payloadTotalToolCalls (d : ImportData) : Nat :=
  match d.summary with
  | some s => s.totalToolCalls.getD 0
  | none => 0

/-- Sum of the values of an optional counter map. -/
def sumValsOpt (f : Option CounterMap) : Nat :=
  match f with
  | some m => sumVals m
  | none => 0

/-- Sum of the per-tool counts carried by an import payload's
`breakdown.byTool` block. -/
def payloadToolSum (d : ImportData) : Nat :=
  sumValsOpt (d.breakdown.bind ImportBreakdown.byTool)

theorem sumVals_mergeMapOpt (m : CounterMap) (f : Option CounterMap) :
    sumVals (mergeMapOpt m f) = sumVals m + sumValsOpt f := by
  cases f with
  | none => simp [mergeMapOpt, sumValsOpt]
  | some f => simp [mergeMapOpt, sumValsOpt, sumVals_mergeMap]

theorem mergeImport_fields (a : Analytics) (d : ImportData) :
    (mergeImport a d).totalRequests = a.totalRequests + payloadTotalRequests d ∧
    (mergeImport a d).totalToolCalls = a.totalToolCalls + payloadTotalToolCalls d ∧
    (mergeImport a d).requestsByMethod
      = mergeMapOpt a.requestsByMethod (d.breakdown.bind ImportBreakdown.byMethod) ∧
    (mergeImport a d).requestsByEndpoint
      = mergeMapOpt a.requestsByEndpoint (d.breakdown.bind ImportBreakdown.byEndpoint) ∧
    (mergeImport a d).toolCalls
      = mergeMapOpt a.toolCalls (d.breakdown.bind ImportBreakdown.byTool) ∧
    (mergeImport a d).clientsByIp
      = mergeMapOpt a.clientsByIp (d.clients.bind ImportClients.byIp) ∧
    (mergeImport a d).clientsByUserAgent
      = mergeMapOpt a.clientsByUserAgent (d.clients.bind ImportClients.byUserAgent) ∧
    (mergeImport a d).hourlyRequests = mergeMapOpt a.hourlyRequests d.hourlyRequests ∧
    (mergeImport a d).recentToolCalls = a.recentToolCalls ∧
    (mergeImport a d).serverStartTime = a.serverStartTime := by
  cases hs : d.summary with
  | none => simp [mergeImport, hs, payloadTotalRequests, payloadTotalToolCalls]
  | some s => simp [mergeImport, hs, payloadTotalRequests, payloadTotalToolCalls]

/-- C3 (amended): `totalToolCalls == sum of toolCalls values` holds
initially and is preserved by `record` of either event kind, by loading a
snapshot that itself satisfies it, and by `save`; the import merge
preserves it exactly when the payload itself is consistent, i.e. its
declared `summary.totalToolCalls` equals the sum of its
`breakdown.byTool` counts. -/
theorem c3_toolcalls_sum_invariant :
    (∀ now, ToolConsistent (initAnalytics now)) ∧
    (∀ a e, ToolConsistent a → ToolConsistent (record e a)) ∧
    (∀ s now, ToolConsistent s → ToolConsistent (loadFrom s now)) ∧
    (∀ s : Sys, ToolConsistent s.mem → ToolConsistent (saveAnalytics s).mem) ∧
    (∀ a d, ToolConsistent a →
      (ToolConsistent (mergeImport a d) ↔ payloadTotalToolCalls d = payloadToolSum d)) := by
  refine ⟨?_, ?_, ?_, ?_, ?_⟩
  · intro now
    simp [ToolConsistent, initAnalytics, sumVals]
  · intro a e h
    cases e with
    | requestObserved m ep ip ua t =>
      simpa [record, trackRequest, ToolConsistent] using h
    | toolInvoked tn ip ua t =>
      simp only [record, trackToolCall, ToolConsistent] at h ⊢
      rw [sumVals_bump, h]
  · intro s now h
    simpa [loadFrom, ToolConsistent] using h
  · intro s h
    simpa [saveAnalytics, ToolConsistent] using h
  · intro a d h
    obtain ⟨h1, h2, h3, h4, h5, h6, h7, h8, h9, h10⟩ := mergeImport_fields a d
    unfold ToolConsistent
    rw [h2, h5, sumVals_mergeMapOpt, h, payloadToolSum]
    omega

/-- A payload the import endpoint accepts although its declared tool-call
total (1) disagrees with its per-tool counts (none at all): the JSON body
with summary block declaring `totalToolCalls: 1` and nothing else. -/
def inconsistentImport : ImportData :=
  { summary := some { totalRequests := none, totalToolCalls := some 1 }
    breakdown := none
    clients := none
    hourlyRequests := none }

/-- C3 counterexample: the import endpoint accepts `inconsistentImport`
(HTTP 200) on a fresh store, yet the resulting store violates
`totalToolCalls == sum of toolCalls values` — so the invariant is not
preserved by `importSnapshot` for every accepted payload. -/
theorem c3_counterexample :
    (importEndpoint (initAnalytics "t0") none none (some inconsistentImport)).2
        = ImportOutcome.ok ∧
    ¬ ToolConsistent (importEndpoint (initAnalytics "t0") none none
        (some inconsistentImport)).1 := by
  refine ⟨rfl, ?_⟩
  simp [importEndpoint, keyRejected, mergeImport, inconsistentImport, initAnalytics,
    ToolConsistent, mergeMapOpt, sumVals]

/-- Closed instance of C3: the invariant holds after one `ToolInvoked`
record on a fresh store, by the preservation theorem. -/
theorem c3_witness :
    ToolConsistent (record (Event.toolInvoked "perplexity_search" "ip" "ua" "t1")
      (initAnalytics "t0")) := by
  have h := c3_toolcalls_sum_invariant
  exact h.2.1 _ _ (h.1 "t0")

/-- Whether an optional foreign map has duplicate-free keys, as every
`JSON.parse`d object does. -/
def nodupKeysB (f : Option CounterMap) : Bool :=
  match f with
  | some m => decide (m.map Prod.fst).Nodup
  | none => true

/-- A foreign payload whose maps all have duplicate-free keys — true of
every payload arriving as parsed JSON. -/
def WellKeyed (d : ImportData) : Prop :=
  nodupKeysB (d.breakdown.bind ImportBreakdown.byMethod) = true ∧
  nodupKeysB (d.breakdown.bind ImportBreakdown.byEndpoint) = true ∧
  nodupKeysB (d.breakdown.bind ImportBreakdown.byTool) = true ∧
  nodupKeysB (d.clients.bind ImportClients.byIp) = true ∧
  nodupKeysB (d.clients.bind ImportClients.byUserAgent) = true ∧
  nodupKeysB d.hourlyRequests = true

/-- Count an optional foreign map contributes at key `k`. -/
def lookupOptD (f : Option CounterMap) (k : String) : Nat :=
  match f with
  | some m => lookupD m k
  | none => 0

theorem lookupD_mergeMapOpt (m : CounterMap) (f : Option CounterMap)
    (h : nodupKeysB f = true) (k : String) :
    lookupD (mergeMapOpt m f) k = lookupD m k + lookupOptD f k := by
  cases f with
  | none => simp [mergeMapOpt, lookupOptD]
  | some f =>
    have hn : (f.map Prod.fst).Nodup := of_decide_eq_true h
    simp [mergeMapOpt, lookupOptD, lookupD_mergeMap, sumAt_eq_lookupD f k hn]

theorem mergeImport_adds (a : Analytics) (d : ImportData) (hw : WellKeyed d) :
    (mergeImport a d).totalRequests = a.totalRequests + payloadTotalRequests d ∧
    (mergeImport a d).totalToolCalls = a.totalToolCalls + payloadTotalToolCalls d ∧
    (∀ k, lookupD (mergeImport a d).requestsByMethod k = lookupD a.requestsByMethod k
      + lookupOptD (d.breakdown.bind ImportBreakdown.byMethod) k) ∧
    (∀ k, lookupD (mergeImport a d).requestsByEndpoint k = lookupD a.requestsByEndpoint k
      + lookupOptD (d.breakdown.bind ImportBreakdown.byEndpoint) k) ∧
    (∀ k, lookupD (mergeImport a d).toolCalls k = lookupD a.toolCalls k
      + lookupOptD (d.breakdown.bind ImportBreakdown.byTool) k) ∧
    (∀ k, lookupD (mergeImport a d).clientsByIp k = lookupD a.clientsByIp k
      + lookupOptD (d.clients.bind ImportClients.byIp) k) ∧
    (∀ k, lookupD (mergeImport a d).clientsByUserAgent k = lookupD a.clientsByUserAgent k
      + lookupOptD (d.clients.bind ImportClients.byUserAgent) k) ∧
    (∀ k, lookupD (mergeImport a d).hourlyRequests k = lookupD a.hourlyRequests k
      + lookupOptD d.hourlyRequests k) ∧
    (mergeImport a d).recentToolCalls = a.recentToolCalls := by
  obtain ⟨hw1, hw2, hw3, hw4, hw5, hw6⟩ := hw
  obtain ⟨h1, h2, h3, h4, h5, h6, h7, h8, h9, h10⟩ := mergeImport_fields a d
  refine ⟨h1, h2, ?_, ?_, ?_, ?_, ?_, ?_, h9⟩
  · intro k; rw [h3, lookupD_mergeMapOpt _ _ hw1 k]
  · intro k; rw [h4, lookupD_mergeMapOpt _ _ hw2 k]
  · intro k; rw [h5, lookupD_mergeMapOpt _ _ hw3 k]
  · intro k; rw [h6, lookupD_mergeMapOpt _ _ hw4 k]
  · intro k; rw [h7, lookupD_mergeMapOpt _ _ hw5 k]
  · intro k; rw [h8, lookupD_mergeMapOpt _ _ hw6 k]

/-- C4: with no import credential configured, the import endpoint accepts
the payload and performs an additive merge — the foreign scalar totals are
added to the local ones and every foreign per-key count is added into the
matching key (a key absent locally starts from 0); importing the same
payload twice increases every affected counter by exactly twice the
foreign count (the merge is not idempotent), and `recentToolCalls` is
never modified by an import. -/
theorem c4_import_additive_not_idempotent (a : Analytics) (d : ImportData)
    (hw : WellKeyed d) :
    importEndpoint a none none (some d) = (mergeImport a d, ImportOutcome.ok) ∧
    (mergeImport a d).totalRequests = a.totalRequests + payloadTotalRequests d ∧
    (mergeImport a d).totalToolCalls = a.totalToolCalls + payloadTotalToolCalls d ∧
    (∀ k, lookupD (mergeImport a d).toolCalls k = lookupD a.toolCalls k
      + lookupOptD (d.breakdown.bind ImportBreakdown.byTool) k) ∧
    (mergeImport a d).recentToolCalls = a.recentToolCalls ∧
    (mergeImport (mergeImport a d) d).totalRequests
      = a.totalRequests + 2 * payloadTotalRequests d ∧
    (mergeImport (mergeImport a d) d).totalToolCalls
      = a.totalToolCalls + 2 * payloadTotalToolCalls d ∧
    (∀ k, lookupD (mergeImport (mergeImport a d) d).requestsByMethod k
      = lookupD a.requestsByMethod k
        + 2 * lookupOptD (d.breakdown.bind ImportBreakdown.byMethod) k) ∧
    (∀ k, lookupD (mergeImport (mergeImport a d) d).requestsByEndpoint k
      = lookupD a.requestsByEndpoint k
        + 2 * lookupOptD (d.breakdown.bind ImportBreakdown.byEndpoint) k) ∧
    (∀ k, lookupD (mergeImport (mergeImport a d) d).toolCalls k
      = lookupD a.toolCalls k + 2 * lookupOptD (d.breakdown.bind ImportBreakdown.byTool) k) ∧
    (∀ k, lookupD (mergeImport (mergeImport a d) d).clientsByIp k
      = lookupD a.clientsByIp k + 2 * lookupOptD (d.clients.bind ImportClients.byIp) k) ∧
    (∀ k, lookupD (mergeImport (mergeImport a d) d).clientsByUserAgent k
      = lookupD a.clientsByUserAgent k
        + 2 * lookupOptD (d.clients.bind ImportClients.byUserAgent) k) ∧
    (∀ k, lookupD (mergeImport (mergeImport a d) d).hourlyRequests k
      = lookupD a.hourlyRequests k + 2 * lookupOptD d.hourlyRequests k) ∧
    (mergeImport (mergeImport a d) d).recentToolCalls = a.recentToolCalls := by
  obtain ⟨g1, g2, g3, g4, g5, g6, g7, g8, g9⟩ := mergeImport_adds a d hw
  obtain ⟨f1, f2, f3, f4, f5, f6, f7, f8, f9⟩ := mergeImport_adds (mergeImport a d) d hw
  refine ⟨rfl, g1, g2, g5, g9, ?_, ?_, ?_, ?_, ?_, ?_, ?_, ?_, ?_⟩
  · rw [f1, g1]; omega
  · rw [f2, g2]; omega
  · intro k; rw [f3 k, g3 k]; omega
  · intro k; rw [f4 k, g4 k]; omega
  · intro k; rw [f5 k, g5 k]; omega
  · intro k; rw [f6 k, g6 k]; omega
  · intro k; rw [f7 k, g7 k]; omega
  · intro k; rw [f8 k, g8 k]; omega
  · rw [f9, g9]

/-- A small concrete foreign snapshot used to instantiate C4. -/
def demoImport : ImportData :=
  { summary := some { totalRequests := some 7, totalToolCalls := some 3 }
    breakdown := some
      { byMethod := some [("POST", 5), ("GET", 2)]
        byEndpoint := some [("/mcp", 7)]
        byTool := some [("perplexity_search", 2), ("perplexity_ask", 1)] }
    clients := some { byIp := some [("1.2.3.4", 7)], byUserAgent := none }
    hourlyRequests := some [("2024-01-01T10", 7)] }

/-- Closed instance of C4 at the concrete payload `demoImport` on a fresh
store: the double import doubles the tool counter and the totals. -/
theorem c4_witness :
    (mergeImport (mergeImport (initAnalytics "t0") demoImport) demoImport).totalToolCalls
      = (initAnalytics "t0").totalToolCalls + 2 * payloadTotalToolCalls demoImport ∧
    lookupD (mergeImport (mergeImport (initAnalytics "t0") demoImport)
        demoImport).toolCalls "perplexity_search"
      = lookupD (initAnalytics "t0").toolCalls "perplexity_search"
        + 2 * lookupOptD (demoImport.breakdown.bind ImportBreakdown.byTool)
            "perplexity_search" ∧
    (mergeImport (mergeImport (initAnalytics "t0") demoImport)
        demoImport).recentToolCalls = (initAnalytics "t0").recentToolCalls := by
  have h := c4_import_additive_not_idempotent (initAnalytics "t0") demoImport
    ⟨by decide, by decide, by decide, by decide, by decide, by decide⟩
  exact ⟨h.2.2.2.2.2.2.1, h.2.2.2.2.2.2.2.2.2.1 "perplexity_search",
    h.2.2.2.2.2.2.2.2.2.2.2.2.2⟩

/-- C5: if an import credential is configured (a non-empty expected key)
and the request presents a non-matching key (or none at all), the request
is answered with the 403 error and the Counter Store is returned exactly
as it was — the rejection happens before any mutation. -/
theorem c5_unauthorized_import_rejected (a : Analytics) (ek : String)
    (ik : Option String) (body : Option ImportData)
    (hne : ek ≠ "") (hmm : ik ≠ some ek) :
    importEndpoint a (some ek) ik body = (a, ImportOutcome.invalidKey) := by
  have hk : keyRejected (some ek) ik = true := by
    simp [keyRejected, bne_iff_ne]
    exact ⟨hne, hmm⟩
  simp [importEndpoint, hk]

/-- Closed instance of C5: a wrong key against a configured credential is
rejected with the store unchanged. -/
theorem c5_witness :
    importEndpoint (initAnalytics "t0") (some "secret") (some "wrong")
        (some demoImport) = (initAnalytics "t0", ImportOutcome.invalidKey) :=
  c5_unauthorized_import_rejected (initAnalytics "t0") "secret" (some "wrong")
    (some demoImport) (by decide) (by decide)

/-- The empty JSON object `\x7b\x7d` as seen by the import handler: none of
the recognized blocks is present. Any payload that is not a well-formed
snapshot of counters — say `\x7b "totalRequests": "banana" \x7d` — reads
the same way, since the handler's guards skip everything it does not
recognize. -/
def emptyImport : ImportData :=
  { summary := none, breakdown := none, clients := none, hourlyRequests := none }

/-- C6 counterexample: the malformed payload modelled by `emptyImport`
(not a well-formed snapshot of integer counters in any sense) is NOT
rejected — the import endpoint merges nothing and reports success
(HTTP 200), so the claim that every malformed payload yields a
client-visible error is false. -/
theorem c6_counterexample :
    importEndpoint (initAnalytics "t0") none none (some emptyImport)
      = (initAnalytics "t0", ImportOutcome.ok) := rfl

/-- C6 (amended): the import endpoint rejects with a client-visible error
only an unparsed (null) body — thrown on first read, hence before any
mutation — while every parsed payload, malformed or not, is merged
leniently (unrecognized parts skipped) and reported as success; whenever
the outcome is an error the Counter Store is exactly unchanged. -/
theorem c6_import_errors_leave_state (a : Analytics) (ek ik : Option String)
    (body : Option ImportData) :
    ((importEndpoint a ek ik body).2 ≠ ImportOutcome.ok →
      (importEndpoint a ek ik body).1 = a) ∧
    (keyRejected ek ik = false → body = none →
      importEndpoint a ek ik body = (a, ImportOutcome.badRequest)) ∧
    (keyRejected ek ik = false → ∀ d, body = some d →
      importEndpoint a ek ik body = (mergeImport a d, ImportOutcome.ok)) := by
  by_cases hk : keyRejected ek ik = true
  · simp [importEndpoint, hk]
  · have hk' : keyRejected ek ik = false := by simpa using hk
    cases body with
    | none => simp [importEndpoint, hk']
    | some d => simp [importEndpoint, hk']

/-- Closed instance of C6 as amended: a null body with no credential
configured is answered with the 400 error and the store unchanged. -/
theorem c6_witness :
    importEndpoint (initAnalytics "t0") none (some "k") none
      = (initAnalytics "t0", ImportOutcome.badRequest) := by
  have h := c6_import_errors_leave_state (initAnalytics "t0") none (some "k") none
  exact h.2.1 rfl rfl

/-- Stable insertion used to model JS `Array.prototype.sort` (stable per
ES2019): the new element `p` is placed after every already-placed `q`
with `keeps q p = true` (comparator value ≤ 0 in JS terms). -/
def insertBy {α : Type} (keeps : α → α → Bool) (p : α) : List α → List α
  | [] => [p]
  | q :: qs => if keeps q p then q :: insertBy keeps p qs else p :: q :: qs

/-- Stable sort by left-to-right insertion: elements processed later are
placed after earlier ties, exactly the stable order of the source's
`.sort(...)` calls. -/
def stableSortBy {α : Type} (keeps : α → α → Bool) (l : List α) : List α :=
  l.foldl (fun acc p => insertBy keeps p acc) []

theorem insertBy_perm {α : Type} (keeps : α → α → Bool) (p : α) (l : List α) :
    (insertBy keeps p l).Perm (p :: l) := by
  induction l with
  | nil => exact List.Perm.refl _
  | cons q qs ih =>
    by_cases h : keeps q p = true
    · simp only [insertBy, h, if_true]
      exact (ih.cons q).trans (List.Perm.swap p q qs)
    · simp only [insertBy, h, if_false]
      exact List.Perm.refl _

theorem foldl_insertBy_perm {α : Type} (keeps : α → α → Bool) (l acc : List α) :
    (l.foldl (fun acc p => insertBy keeps p acc) acc).Perm (acc ++ l) := by
  induction l generalizing acc with
  | nil => simp
  | cons p ps ih =>
    have h1 := ih (insertBy keeps p acc)
    have h2 : (insertBy keeps p acc ++ ps).Perm ((p :: acc) ++ ps) :=
      (insertBy_perm keeps p acc).append_right ps
    have h3 : ((p :: acc) ++ ps).Perm (acc ++ p :: ps) := by
      simpa using List.perm_middle.symm
    exact (h1.trans h2).trans h3

theorem stableSortBy_perm {α : Type} (keeps : α → α → Bool) (l : List α) :
    (stableSortBy keeps l).Perm l := by
  simpa [stableSortBy] using foldl_insertBy_perm keeps l []

/-- `Object.entries(m).sort(([, a], [, b]) => b - a)`: descending by
count, stable on ties. -/
def sortByCountDesc (m : CounterMap) : CounterMap :=
  stableSortBy (fun q p => decide (p.2 ≤ q.2)) m

/-- `Object.entries(m).sort(([a], [b]) => b.localeCompare(a))`: descending
by key (lexicographic on the ASCII ISO hour keys used here). -/
def sortByKeyDesc (m : CounterMap) : CounterMap :=
  stableSortBy (fun q p => decide (p.1 ≤ q.1)) m

/-- `getUptime` (lines 177-189) on millisecond clock values (`Date`
parsing is environmental and passed in by the caller): JS `Math.floor`
division is `Int.fdiv`, JS `%` is the truncating `Int.tmod`. -/
def getUptime (startMs nowMs : Int) : String :=
  let diff := nowMs - startMs
  let days := Int.fdiv diff 86400000
  let hours := Int.fdiv (Int.tmod diff 86400000) 3600000
  let minutes := Int.fdiv (Int.tmod diff 3600000) 60000
  if 0 < days then
    toString days ++ "d " ++ toString hours ++ "h " ++ toString minutes ++ "m"
  else if 0 < hours then toString hours ++ "h " ++ toString minutes ++ "m"
  else toString minutes ++ "m"

/-- `((count / total) * 100).toFixed(1) + '%'` with the arithmetic exact:
`toFixed(1)` picks the tenths integer nearest to the value, the larger on
ties (round half up), here computed on the exact rational where the code
rounds the nearest float64. -/
def fmtPercent (count total : Nat) : String :=
  let tenths := (2000 * count + total) / (2 * total)
  toString (tenths / 10) ++ "." ++ toString (tenths % 10) ++ "%"

/-- The ternary of lines 541-543: guard against `totalToolCalls == 0`. -/
def toolPercentage (total count : Nat) : String :=
  if 0 < total then fmtPercent count total else "0%"

/-- One entry of the `/analytics/tools` response (lines 538-544). -/
structure ToolStat where
  tool : String
  count : Nat
  percentage : String
deriving Repr, DecidableEq

/-- The sorted per-tool table of `/analytics/tools` (lines 536-544). -/
def toolStatsOf (a : Analytics) : List ToolStat :=
  (sortByCountDesc a.toolCalls).map fun p =>
    { tool := p.1, count := p.2, percentage := toolPercentage a.totalToolCalls p.2 }

/-- The `/analytics/tools` response body (lines 546-550). -/
structure ToolsView where
  totalToolCalls : Nat
  tools : List ToolStat
  recentCalls : List ToolCall
deriving Repr, DecidableEq

/-- Pure derivation of the `/analytics/tools` view from a store state. -/
def toolsViewOf (a : Analytics) : ToolsView :=
  { totalToolCalls := a.totalToolCalls
    tools := toolStatsOf a
    recentCalls := a.recentToolCalls }

/-- The `GET /analytics/tools` handler (lines 533-551): it first records
itself via `trackRequest`, then derives the view from the updated store. -/
def analyticsToolsEndpoint (a : Analytics) (ip ua now : String) :
    Analytics × ToolsView :=
  let a1 := trackRequest a "GET" "/analytics/tools" ip ua now
  (a1, toolsViewOf a1)

/-- The `/analytics` summary response body (lines 509-529). -/
structure SummaryView where
  uptime : String
  serverStartTime : String
  totalRequests : Nat
  totalToolCalls : Nat
  uniqueClients : Nat
  byMethod : CounterMap
  byEndpoint : CounterMap
  byTool : CounterMap
  clientsByIp : CounterMap
  clientsByUserAgent : CounterMap
  hourlyRequests : CounterMap
  recentToolCalls : List ToolCall
deriving Repr, DecidableEq

/-- Pure derivation of the `/analytics` summary view (lines 494-529):
tools sorted by descending count, top-20 clients, the 24 most recent hour
buckets oldest-first, and only the first 20 recent tool calls. -/
def summaryViewOf (a : Analytics) (dateMs : String → Int) (nowMs : Int) : SummaryView :=
  { uptime := getUptime (dateMs a.serverStartTime) nowMs
    serverStartTime := a.serverStartTime
    totalRequests := a.totalRequests
    totalToolCalls := a.totalToolCalls
    uniqueClients := a.clientsByIp.length
    byMethod := a.requestsByMethod
    byEndpoint := a.requestsByEndpoint
    byTool := sortByCountDesc a.toolCalls
    clientsByIp := (sortByCountDesc a.clientsByIp).take 20
    clientsByUserAgent := a.clientsByUserAgent
    hourlyRequests := ((sortByKeyDesc a.hourlyRequests).take 24).reverse
    recentToolCalls := a.recentToolCalls.take 20 }

/-- The `GET /analytics` handler (lines 491-530): it first records itself
via `trackRequest`, then derives the summary view from the updated
store. -/
def analyticsSummaryEndpoint (a : Analytics) (ip ua now : String)
    (dateMs : String → Int) (nowMs : Int) : Analytics × SummaryView :=
  let a1 := trackRequest a "GET" "/analytics" ip ua now
  (a1, summaryViewOf a1 dateMs nowMs)

/-- C7 counterexample: evaluating the `/analytics` summary query on a
fresh Counter Store does NOT leave the store unchanged — the handler's own
`trackRequest` call increments `totalRequests` from 0 to 1, so the claim
that a query leaves every field (totalRequests included) intact is false. -/
theorem c7_counterexample :
    (initAnalytics "t0").totalRequests = 0 ∧
    ((analyticsSummaryEndpoint (initAnalytics "t0") "1.2.3.4" "agent"
        "2024-01-01T10:00:00.000Z" (fun _ => 0) 0).1).totalRequests = 1 :=
  ⟨rfl, rfl⟩

/-- C7 (amended): the view derivations themselves are pure — each query
handler changes the Counter Store exactly by recording its own request
(`trackRequest`), nothing else: the resulting state is precisely
`trackRequest` of the previous one, and every tool-call-related field
(`totalToolCalls`, `toolCalls`, `recentToolCalls`) is left unchanged by
both query endpoints. -/
theorem c7_queries_track_themselves_only (a : Analytics) (ip ua now : String)
    (dateMs : String → Int) (nowMs : Int) :
    (analyticsSummaryEndpoint a ip ua now dateMs nowMs).1
      = trackRequest a "GET" "/analytics" ip ua now ∧
    (analyticsSummaryEndpoint a ip ua now dateMs nowMs).2
      = summaryViewOf (trackRequest a "GET" "/analytics" ip ua now) dateMs nowMs ∧
    (analyticsToolsEndpoint a ip ua now).1
      = trackRequest a "GET" "/analytics/tools" ip ua now ∧
    (analyticsToolsEndpoint a ip ua now).2
      = toolsViewOf (trackRequest a "GET" "/analytics/tools" ip ua now) ∧
    (analyticsSummaryEndpoint a ip ua now dateMs nowMs).1.totalToolCalls
      = a.totalToolCalls ∧
    (analyticsSummaryEndpoint a ip ua now dateMs nowMs).1.toolCalls = a.toolCalls ∧
    (analyticsSummaryEndpoint a ip ua now dateMs nowMs).1.recentToolCalls
      = a.recentToolCalls ∧
    (analyticsToolsEndpoint a ip ua now).1.totalToolCalls = a.totalToolCalls ∧
    (analyticsToolsEndpoint a ip ua now).1.toolCalls = a.toolCalls ∧
    (analyticsToolsEndpoint a ip ua now).1.recentToolCalls = a.recentToolCalls :=
  ⟨rfl, rfl, rfl, rfl, rfl, rfl, rfl, rfl, rfl, rfl⟩

/-- C8: the per-tool percentage table never divides by zero — on a store
with `totalToolCalls == 0` every entry of the breakdown (one per
`toolCalls` key) reports the string `0%`, and with `totalToolCalls > 0`
every entry reports `count / totalToolCalls * 100` formatted to one
decimal place. -/
theorem c8_percentage_zero_safe (a : Analytics) :
    (a.totalToolCalls = 0 → ∀ s ∈ (toolsViewOf a).tools, s.percentage = "0%") ∧
    (a.totalToolCalls = 0 → ∀ p ∈ a.toolCalls,
      ({ tool := p.1, count := p.2, percentage := "0%" } : ToolStat)
        ∈ (toolsViewOf a).tools) ∧
    (0 < a.totalToolCalls → ∀ s ∈ (toolsViewOf a).tools,
      s.percentage = fmtPercent s.count a.totalToolCalls) := by
  refine ⟨?_, ?_, ?_⟩
  · intro h s hs
    simp only [toolsViewOf, toolStatsOf, List.mem_map] at hs
    obtain ⟨p, _, rfl⟩ := hs
    simp [toolPercentage, h]
  · intro h p hp
    have hmem : p ∈ sortByCountDesc a.toolCalls :=
      ((stableSortBy_perm _ a.toolCalls).mem_iff).mpr hp
    have himg := List.mem_map_of_mem
      (fun p : String × Nat =>
        ({ tool := p.1, count := p.2,
           percentage := toolPercentage a.totalToolCalls p.2 } : ToolStat)) hmem
    simpa [toolsViewOf, toolStatsOf, toolPercentage, h] using himg
  · intro h s hs
    simp only [toolsViewOf, toolStatsOf, List.mem_map] at hs
    obtain ⟨p, _, rfl⟩ := hs
    simp [toolPercentage, h]

/-- A store whose per-tool map has a key although no call was counted —
`totalToolCalls = 0` — as produced e.g. by importing a payload carrying a
zero count. -/
def zeroToolState : Analytics :=
  { initAnalytics "t0" with toolCalls := [("perplexity_ask", 0)] }

/-- Closed instance of C8: on `zeroToolState` the breakdown lists
`perplexity_ask` with percentage `0%` and no division is attempted. -/
theorem c8_witness :
    ({ tool := "perplexity_ask", count := 0, percentage := "0%" } : ToolStat)
      ∈ (toolsViewOf zeroToolState).tools := by
  have h := c8_percentage_zero_safe zeroToolState
  exact h.2.1 rfl ("perplexity_ask", 0) (by decide)

/-- The spec section 8 scenario: 3 `RequestObserved` for `/mcp`, then 2
for `/health`, all in hour `2024-01-01T10`, then one `ToolInvoked` for
`perplexity_search`. The method, client ip and user agent are arbitrary. -/
def scenarioEvents (method ip ua : String) : List Event :=
  [ .requestObserved method "/mcp" ip ua "2024-01-01T10:01:00.000Z"
  , .requestObserved method "/mcp" ip ua "2024-01-01T10:05:00.000Z"
  , .requestObserved method "/mcp" ip ua "2024-01-01T10:10:00.000Z"
  , .requestObserved method "/health" ip ua "2024-01-01T10:15:00.000Z"
  , .requestObserved method "/health" ip ua "2024-01-01T10:20:00.000Z"
  , .toolInvoked "perplexity_search" ip ua "2024-01-01T10:25:00.000Z" ]

/-- C9: running the scenario on a fresh Counter Store yields exactly the
expected aggregates: `totalRequests = 5`, endpoint counts 3 and 2, a
single hour bucket `2024-01-01T10` holding all 5 requests,
`totalToolCalls = 1`, one `perplexity_search` tool count, and exactly one
recent tool call. -/
theorem c9_scenario (now method ip ua : String) :
    (run (initAnalytics now) (scenarioEvents method ip ua)).totalRequests = 5 ∧
    (run (initAnalytics now) (scenarioEvents method ip ua)).requestsByEndpoint
      = [("/mcp", 3), ("/health", 2)] ∧
    (run (initAnalytics now) (scenarioEvents method ip ua)).hourlyRequests
      = [("2024-01-01T10", 5)] ∧
    (run (initAnalytics now) (scenarioEvents method ip ua)).totalToolCalls = 1 ∧
    (run (initAnalytics now) (scenarioEvents method ip ua)).toolCalls
      = [("perplexity_search", 1)] ∧
    (run (initAnalytics now) (scenarioEvents method ip ua)).recentToolCalls.length = 1 :=
  ⟨rfl, rfl, rfl, rfl, rfl, rfl⟩

/-- C10: on every store reachable by recording events into a fresh one,
the summary view exposes only the 20 newest entries of `recentToolCalls`
(`slice(0, 20)`), the detailed tool-stats view exposes the entire stored
list, and that stored list never holds more than 100 entries. -/
theorem c10_recent_views (now : String) (evs : List Event) (ip ua t : String)
    (dateMs : String → Int) (nowMs : Int) :
    (analyticsSummaryEndpoint (run (initAnalytics now) evs) ip ua t dateMs
        nowMs).2.recentToolCalls
      = (run (initAnalytics now) evs).recentToolCalls.take 20 ∧
    (analyticsToolsEndpoint (run (initAnalytics now) evs) ip ua t).2.recentCalls
      = (run (initAnalytics now) evs).recentToolCalls ∧
    (run (initAnalytics now) evs).recentToolCalls.length ≤ 100 := by
  refine ⟨rfl, rfl, ?_⟩
  have h := recentToolCalls_run evs (initAnalytics now) (by simp [initAnalytics])
  rw [h, List.length_take]
  exact inf_le_left

end HttpServer
